import Mathlib

/-!
Verification of the kalshi/polymarket sniper bot against its specification.

The TypeScript source is embedded shallowly:
- JSON maps (the holdings ledger `data/token-holding.json`) become association
  lists over `String` keys;
- JS numbers become `ℚ` (every `ℚ` value models a finite JS number;
  `Math.floor` is `Int.floor`, `Math.round x` is `⌊x + 1/2⌋` which agrees with
  JS for the non-negative inputs used here, `Math.ceil` is `Int.ceil`);
- network calls (order placement, balance reads, pid liveness) become
  explicit outcome environments passed to the embedded control flow;
- module-level mutable state becomes explicit state records threaded through
  step functions.
-/

/-! ## Association lists (embedding of plain-object JSON maps) -/

/-! ## Holdings ledger (src/polymarket/holdings.ts)

`TokenHoldings` is the JSON document `{conditionId: {tokenId: number}}`.
File IO (`loadHoldings` / `saveHoldings`) becomes explicit state passing:
each mutator takes the current ledger and returns the next one. -/

/-! ## Double ledger write on strategy entry buys (C2)

`placePolymarketOrder` (src/polymarket/order.ts, success path) calls
`addHolding(options.conditionId, tokenId, size)` whenever
`options.conditionId` is supplied; `checkKalshi1PolyStrategy`
(src/monitor/kalshi-1-poly-strategy.ts) then calls `addHolding` again with
the same conditionId, token and size after the buy succeeded. -/

/-! ## JS numeric helpers -/

/-! ## Follow-Confidence exit threshold (src/monitor/kalshi-1-poly-strategy.ts)

While holding, the strategy computes
`effectiveSellThreshold = kalshiSameSide >= 1.0 ? POLY_SELL_BELOW - POLY_SELL_RANGE_BUFFER : POLY_SELL_BELOW`
and exits exactly when `currentPrice < effectiveSellThreshold`. -/

/-! ## Pre-trading balance check (two entrypoints)

The strategy entrypoint `run-kalshi-1-poly.ts` and the arb monitor entrypoint
`src/monitor/run.ts` each define `checkBalancesOrExit` with the same shortfall
condition; the strategy variant has the `process.exit(1)` commented out (it
logs and continues), the arb variant exits with code 1. -/

/-! ## Single-instance monitor lock (src/core/monitor-lock.ts)

The filesystem and process table are modeled explicitly: `lockFile` is the
content of logs/monitor.lock (`none` = absent; `some none` = present but not
parseable as a pid; `some (some pid)` = present holding `pid`), `alive` is
`isPidRunning` (a SIGTERM is asynchronous, so liveness is unchanged within one
`acquire` call), and `unlinkOk` tells whether `fs.unlinkSync` succeeds — its
exceptions are swallowed by the source's empty catch blocks. -/

def lookupA {α : Type} : List (String × α) → String → Option α
  | [], _ => none
  | (k, v) :: rest, key => if k = key then some v else lookupA rest key

def setA {α : Type} : List (String × α) → String → α → List (String × α)
  | [], key, v => [(key, v)]
  | (k, w) :: rest, key, v =>
    if k = key then (key, v) :: rest else (k, w) :: setA rest key v

def eraseA {α : Type} : List (String × α) → String → List (String × α)
  | [], _ => []
  | (k, v) :: rest, key =>
    if k = key then eraseA rest key else (k, v) :: eraseA rest key

def TokenHoldings : Type := List (String × List (String × ℚ))

/-- Embedding of `addHolding(conditionId, tokenId, amount)`: no-op when either
id is empty or the amount is not positive, otherwise adds `amount` to the
nested entry, creating it as needed. -/
def addHolding (h : TokenHoldings) (conditionId tokenId : String) (amount : ℚ) :
    TokenHoldings :=
  if conditionId = "" ∨ tokenId = "" ∨ amount ≤ 0 then h
  else
    let m := (lookupA h conditionId).getD []
    let current := (lookupA m tokenId).getD 0
    setA h conditionId (setA m tokenId (current + amount))

/-- Embedding of `clearMarketHoldings(conditionId)`: deletes the whole key for
the settlement id when present, otherwise leaves the ledger unchanged. -/
def clearMarketHoldings (h : TokenHoldings) (conditionId : String) : TokenHoldings :=
  match lookupA h conditionId with
  | some _ => eraseA h conditionId
  | none => h

/-- Quantity recorded in the ledger for a (conditionId, tokenId) pair, 0 when
absent (mirrors `holdings[conditionId][tokenId] ?? 0`). -/
def getQty (h : TokenHoldings) (conditionId tokenId : String) : ℚ :=
  (lookupA ((lookupA h conditionId).getD []) tokenId).getD 0

/-- Ledger effect of `placePolymarketOrder`: on a successful placement with a
supplied `options.conditionId`, the order module itself records the holding. -/
def placePolymarketOrderLedgerEffect (success : Bool) (optConditionId : Option String)
    (tokenId : String) (size : ℚ) (h : TokenHoldings) : TokenHoldings :=
  if success then
    match optConditionId with
    | some cid => addHolding h cid tokenId size
    | none => h
  else h

/-- Ledger effect of a successful (non-dry-run) strategy entry buy: the order
module records the holding, then the strategy records it again. -/
def strategyEntryBuyLedgerEffect (h : TokenHoldings) (cid tid : String) (size : ℚ) :
    TokenHoldings :=
  addHolding (placePolymarketOrderLedgerEffect true (some cid) tid size h) cid tid size

/-- Embedding of `Math.floor` on finite JS numbers. -/
def jsFloor (x : ℚ) : ℤ := ⌊x⌋

/-- Embedding of `Math.round` (agrees with JS on the non-negative inputs used
by this program). -/
def jsRound (x : ℚ) : ℤ := ⌊x + 1 / 2⌋

/-- Embedding of `Math.ceil` on finite JS numbers. -/
def jsCeil (x : ℚ) : ℤ := ⌈x⌉

def effectiveSellThreshold (polySellBelow rangeBuffer kalshiSameSide : ℚ) : ℚ :=
  if 1 ≤ kalshiSameSide then polySellBelow - rangeBuffer else polySellBelow

/-- Embedding of the exit trigger `currentPrice < effectiveSellThreshold`. -/
def exitTriggered (polySellBelow rangeBuffer kalshiSameSide currentPrice : ℚ) : Bool :=
  decide (currentPrice < effectiveSellThreshold polySellBelow rangeBuffer kalshiSameSide)

/-- Shared shortfall condition of both `checkBalancesOrExit` variants:
Kalshi cents below `Math.round(MIN_BALANCE_USD * 100)`, or a configured
Polymarket balance below `MIN_BALANCE_USD` (an unconfigured Polymarket — the
balance read returned null — passes). -/
def balanceShortfall (minBalanceUsd kalshiCents : ℚ) (polyUsd : Option ℚ) : Bool :=
  let minCents : ℚ := ((jsRound (minBalanceUsd * 100) : ℤ) : ℚ)
  let kalshiOk : Bool := decide (minCents ≤ kalshiCents)
  let polyOk : Bool :=
    match polyUsd with
    | none => true
    | some v => decide (minBalanceUsd ≤ v)
  !kalshiOk || !polyOk

inductive BalanceOutcome : Type
  | halted (code : Nat)
  | continuedWithWarning
  | continuedOk
deriving DecidableEq

/-- Embedding of `checkBalancesOrExit` from src/monitor/run.ts: on shortfall it
logs and calls `process.exit(1)`. -/
def checkBalancesOrExitArbMonitor (minBalanceUsd kalshiCents : ℚ)
    (polyUsd : Option ℚ) : BalanceOutcome :=
  if balanceShortfall minBalanceUsd kalshiCents polyUsd then BalanceOutcome.halted 1
  else BalanceOutcome.continuedOk

/-- Embedding of `checkBalancesOrExit` from the strategy entrypoint
(run-kalshi-1-poly.ts): on shortfall it logs the warning but the
`process.exit(1)` is commented out, so the process continues. -/
def checkBalancesOrExitK1PMonitor (minBalanceUsd kalshiCents : ℚ)
    (polyUsd : Option ℚ) : BalanceOutcome :=
  if balanceShortfall minBalanceUsd kalshiCents polyUsd then
    BalanceOutcome.continuedWithWarning
  else BalanceOutcome.continuedOk

structure LockWorld : Type where
  lockFile : Option (Option ℤ)
  alive : ℤ → Bool
  unlinkOk : Bool
  selfPid : ℤ

inductive LockOutcome : Type
  | continued
  | exited (code : Nat)
deriving DecidableEq

/-- Embedding of the `fs.unlinkSync(LOCK_FILE)` calls whose failures are
ignored. -/
def tryUnlink (w : LockWorld) : LockWorld :=
  if w.unlinkOk then { w with lockFile := none } else w

/-- Embedding of `killExistingAndRemoveLock`: read the lock file (return if
absent or unparsable), unlink without killing when it holds our own pid,
otherwise SIGTERM the recorded pid when alive and unlink. Returns the new
world and the list of pids signalled. -/
def killExistingAndRemoveLock (w : LockWorld) : LockWorld × List ℤ :=
  match w.lockFile with
  | none => (w, [])
  | some parsed =>
    match parsed with
    | none => (w, [])
    | some pid =>
      if pid = w.selfPid then (tryUnlink w, [])
      else if w.alive pid then (tryUnlink w, [pid])
      else (tryUnlink w, [])

/-- Embedding of `acquireMonitorLock`: kill-and-remove, then an exclusive
(`wx`) write of our own pid; on EEXIST re-read the lock and exit with code 1
when it names a live pid, else overwrite it. Returns the final world, the
pids signalled, and whether the process continued or exited. -/
def acquireMonitorLock (w : LockWorld) : LockWorld × List ℤ × LockOutcome :=
  let wk := killExistingAndRemoveLock w
  match wk.1.lockFile with
  | none =>
    ({ wk.1 with lockFile := some (some wk.1.selfPid) }, wk.2, LockOutcome.continued)
  | some parsed =>
    match parsed with
    | some pid =>
      if wk.1.alive pid then (wk.1, wk.2, LockOutcome.exited 1)
      else ({ wk.1 with lockFile := some (some wk.1.selfPid) }, wk.2, LockOutcome.continued)
    | none =>
      ({ wk.1 with lockFile := some (some wk.1.selfPid) }, wk.2, LockOutcome.continued)

/-! ## Polymarket order results and the fill-or-kill error pattern

`PlacePolyResult` embeds `{ orderId } | { error } | null` from
src/polymarket/order.ts. The regex
`/couldn\x27t be fully filled|FOK|FAK|fill.or.kill|fill.and.kill/i` of
src/monitor/arb.ts (and the shorter strategy variant without FAK) is embedded
as a case-insensitive substring matcher in which `none` stands for the
regex dot (any single character). -/

inductive PlacePolyResult : Type
  | ok (orderId : String)
  | err (msg : String)
  | nullRes
deriving DecidableEq

def apostropheChar : Char := Char.ofNat 39

def litPat (s : String) : List (Option Char) := s.toList.map some

def patCouldNotFill : List (Option Char) :=
  litPat "couldn" ++ [some apostropheChar] ++ litPat "t be fully filled"

def patFok : List (Option Char) := litPat "FOK"

def patFak : List (Option Char) := litPat "FAK"

def patFillOrKill : List (Option Char) :=
  litPat "fill" ++ [none] ++ litPat "or" ++ [none] ++ litPat "kill"

def patFillAndKill : List (Option Char) :=
  litPat "fill" ++ [none] ++ litPat "and" ++ [none] ++ litPat "kill"

def charMatches (p : Option Char) (c : Char) : Bool :=
  match p with
  | none => true
  | some pc => pc.toLower == c.toLower

def matchesAt : List (Option Char) → List Char → Bool
  | [], _ => true
  | _ :: _, [] => false
  | p :: ps, c :: cs => charMatches p c && matchesAt ps cs

def containsPat (pat : List (Option Char)) : List Char → Bool
  | [] => matchesAt pat []
  | c :: cs => matchesAt pat (c :: cs) || containsPat pat cs

/-- Embedding of `isFokNotFilledError` from src/monitor/arb.ts. -/
def isFokNotFilledError (e : String) : Bool :=
  containsPat patCouldNotFill e.toList || containsPat patFok e.toList ||
    containsPat patFak e.toList || containsPat patFillOrKill e.toList ||
    containsPat patFillAndKill e.toList

/-- Embedding of the fill-failure test inside `placePolyBuyWithRetry`
(src/monitor/kalshi-1-poly-strategy.ts line 149): same pattern without the
FAK alternatives. -/
def isFokNotFilledErrorK1P (e : String) : Bool :=
  containsPat patCouldNotFill e.toList || containsPat patFok e.toList ||
    containsPat patFillOrKill e.toList

/-! ## Follow-Confidence buy retry (src/monitor/kalshi-1-poly-strategy.ts) -/

def POLY_PRICE_MAX : ℚ := 99 / 100

def FOK_RETRY_BUFFER : ℚ := 1 / 100

/-- Retry price of `placePolyBuyWithRetry`:
`ask != null ? Math.min(POLY_PRICE_MAX, ask + FOK_RETRY_BUFFER) : POLY_PRICE_MAX`. -/
def fokRetryPrice (ask : Option ℚ) : ℚ :=
  match ask with
  | some a => min POLY_PRICE_MAX (a + FOK_RETRY_BUFFER)
  | none => POLY_PRICE_MAX

/-- Embedding of `placePolyBuyWithRetry`: outcomes of the two possible
placements are supplied by `firstResult` and `retryResult`; the returned list
holds the limit prices of the placements actually performed (first the
caller's price `p0`, then, only on a matching fill failure, the re-priced
retry). A null or successful first result is returned as is; an error that
does not match the fill-failure pattern is returned without retry; a matching
error triggers exactly one retry whose result is final. -/
def placePolyBuyWithRetry (firstResult retryResult : PlacePolyResult) (p0 : ℚ)
    (ask : Option ℚ) : PlacePolyResult × List ℚ :=
  match firstResult with
  | PlacePolyResult.err e =>
    if isFokNotFilledErrorK1P e then (retryResult, [p0, fokRetryPrice ask])
    else (firstResult, [p0])
  | r => (r, [p0])

/-! ## Cross-venue arbitrage engine (src/monitor/arb.ts)

Module-level state (`upArbDoneTickers`, `downArbDoneTickers`,
`openArbPositions`) becomes `ArbState`; the configuration constants become an
`ArbCfg` record (defaults: ARB_SUM_LOW 0.75, ARB_SUM_THRESHOLD 0.92); each
tick's prices arrive as an `ArbTick`; order outcomes come from an `OrderEnv`.
The step function returns the new state together with the list of venue
orders actually dispatched. -/

def ARB_SUM_LOW : ℚ := 3 / 4

def ARB_SUM_THRESHOLD : ℚ := 23 / 25

/-- Membership in a `Set<string>` of tickers (`upArbDoneTickers.has` etc.). -/
def containsS : List String → String → Bool
  | [], _ => false
  | y :: ys, x => if y = x then true else containsS ys x

/-- Embedding of `inRange` (src/kalshi/bot.ts arb section, lines 265-267):
`Number.isFinite(sum) && sum >= ARB_SUM_LOW && sum < ARB_SUM_THRESHOLD`.
Every `ℚ` models a finite JS number, so the finiteness conjunct holds of
every representable sum. -/
def inRange (low high sum : ℚ) : Bool :=
  decide (low ≤ sum) && decide (sum < high)

inductive Leg : Type
  | up
  | down
deriving DecidableEq

structure OpenArbPosition : Type where
  leg : Leg
  kalshiSideYes : Bool
  kalshiCount : ℤ
  polyTokenId : String
  polySize : ℚ
deriving DecidableEq

structure ArbCfg : Type where
  low : ℚ
  high : ℚ
  priceBuffer : ℚ
  arbSize : ℚ
  kalshiMin : ℤ
  polyMin : ℚ
  minUsdCfg : ℚ
  dryRun : Bool

structure ArbTick : Type where
  ticker : String
  upAskCents : ℚ
  downAskCents : ℚ
  polyUp : ℚ
  polyDown : ℚ
  upTokenId : String
  downTokenId : String
  conditionId : String

structure OrderEnv : Type where
  kalshiOk : Bool
  polyFirst : PlacePolyResult
  polyRetry : PlacePolyResult
  bestAsk : Option ℚ

structure ArbState : Type where
  upDone : List String
  downDone : List String
  positions : List (String × OpenArbPosition)

inductive ArbAction : Type
  | kalshiBuy (ticker : String) (sideYes : Bool) (count : ℤ) (priceCents : ℤ)
  | polyBuy (tokenId : String) (price : ℚ) (size : ℚ)
  | polyBuyRetry (tokenId : String) (price : ℚ) (size : ℚ)
  | kalshiSell (ticker : String) (sideYes : Bool) (count : ℤ)
  | polySell (tokenId : String) (size : ℚ)
deriving DecidableEq

/-- Retry price of `retryPolymarketFokAfter200ms`:
`currentAsk != null ? Math.min(1, currentAsk + ARB_PRICE_BUFFER) : 0.99`. -/
def arbRetryPrice (buffer : ℚ) (ask : Option ℚ) : ℚ :=
  match ask with
  | some a => min 1 (a + buffer)
  | none => 99 / 100

def polyResOk : PlacePolyResult → Bool
  | PlacePolyResult.ok _ => true
  | _ => false

/-- Whether the arb entry path performs the single FOK retry: the first
Polymarket result is an error matching the fill-failure pattern. -/
def polyRetried (env : OrderEnv) : Bool :=
  match env.polyFirst with
  | PlacePolyResult.err e => isFokNotFilledError e
  | _ => false

/-- Final Polymarket result seen by the arb entry path: the first result,
except that a fill-failure error is replaced by the outcome of the single
retry. -/
def polyFinalRes (env : OrderEnv) : PlacePolyResult :=
  match env.polyFirst with
  | PlacePolyResult.err e =>
    if isFokNotFilledError e then env.polyRetry else env.polyFirst
  | r => r

/-- Shared body of the two `inRange` entry blocks of
`checkArbAndPlaceOrders` (they are identical up to the leg parameters):
compute the Kalshi limit price, the buffered Polymarket price and size,
dispatch both orders concurrently (dry run dispatches nothing), apply the
single FOK retry to the Polymarket result, and record the `OpenArbPosition`
exactly when neither final result is an error. Returns the updated positions
map and the dispatched orders. -/
def arbEntryLeg (cfg : ArbCfg) (env : OrderEnv)
    (positions0 : List (String × OpenArbPosition)) (ticker : String)
    (leg : Leg) (sideYes : Bool) (polyTokenId : String) (kAsk polyAsk : ℚ) :
    List (String × OpenArbPosition) × List ArbAction :=
  let kalshiContracts : ℤ := max cfg.kalshiMin (jsRound cfg.arbSize)
  let minUsd := if 0 < cfg.minUsdCfg then cfg.minUsdCfg else 1
  let kalshiPriceCents := jsRound ((kAsk + cfg.priceBuffer) * 100)
  let polyPrice := min 1 (polyAsk + cfg.priceBuffer)
  let polySize := max (max cfg.polyMin cfg.arbSize) ((jsCeil (minUsd / polyPrice) : ℤ) : ℚ)
  if cfg.dryRun then (positions0, [])
  else
    let acts :=
      [ArbAction.kalshiBuy ticker sideYes kalshiContracts kalshiPriceCents,
       ArbAction.polyBuy polyTokenId polyPrice polySize] ++
      (if polyRetried env then
        [ArbAction.polyBuyRetry polyTokenId (arbRetryPrice cfg.priceBuffer env.bestAsk) polySize]
      else [])
    if env.kalshiOk && polyResOk (polyFinalRes env) then
      (setA positions0 ticker ⟨leg, sideYes, kalshiContracts, polyTokenId, polySize⟩, acts)
    else (positions0, acts)

/-- Entry phase of `checkArbAndPlaceOrders` (the two `inRange` blocks). The
UP-leg block is checked first and returns whether or not it attempts, so the
DOWN leg is only evaluated when the UP sum is out of range. The leg attempt
flag (`upArbDoneTickers` / `downArbDoneTickers`) is consulted before and set
at the start of an attempt. -/
def arbEntry (cfg : ArbCfg) (env : OrderEnv) (st : ArbState) (tk : ArbTick) :
    ArbState × List ArbAction :=
  let kUp := tk.upAskCents / 100
  let kDown := tk.downAskCents / 100
  let sumUp := kUp + tk.polyDown
  let sumDown := kDown + tk.polyUp
  if inRange cfg.low cfg.high sumUp then
    if containsS st.upDone tk.ticker then (st, [])
    else
      let r := arbEntryLeg cfg env st.positions tk.ticker Leg.up true tk.downTokenId kUp tk.polyDown
      (⟨tk.ticker :: st.upDone, st.downDone, r.1⟩, r.2)
  else if inRange cfg.low cfg.high sumDown then
    if containsS st.downDone tk.ticker then (st, [])
    else
      let r := arbEntryLeg cfg env st.positions tk.ticker Leg.down false tk.upTokenId kDown tk.polyUp
      (⟨st.upDone, tk.ticker :: st.downDone, r.1⟩, r.2)
  else (st, [])

/-- Embedding of one invocation of `checkArbAndPlaceOrders`: exit an open
position whose leg sum dropped below the low bound (selling both legs and
deleting the position), otherwise fall through to the entry phase. -/
def checkArbStep (cfg : ArbCfg) (env : OrderEnv) (st : ArbState) (tk : ArbTick) :
    ArbState × List ArbAction :=
  let kUp := tk.upAskCents / 100
  let kDown := tk.downAskCents / 100
  let sumUp := kUp + tk.polyDown
  let sumDown := kDown + tk.polyUp
  match lookupA st.positions tk.ticker with
  | some p =>
    let sum := match p.leg with
      | Leg.up => sumUp
      | Leg.down => sumDown
    if sum < cfg.low then
      ({ st with positions := eraseA st.positions tk.ticker },
       [ArbAction.kalshiSell tk.ticker p.kalshiSideYes p.kalshiCount,
        ArbAction.polySell p.polyTokenId p.polySize])
    else arbEntry cfg env st tk
  | none => arbEntry cfg env st tk

/-- Sequence of `checkArbAndPlaceOrders` invocations over successive ticks,
collecting all dispatched orders. -/
def runArbTrace (cfg : ArbCfg) : ArbState → List (ArbTick × OrderEnv) →
    ArbState × List ArbAction
  | st, [] => (st, [])
  | st, (tk, env) :: rest =>
    let r1 := checkArbStep cfg env st tk
    let r2 := runArbTrace cfg r1.1 rest
    (r2.1, r1.2 ++ r2.2)

def isUpEntryAct (t : String) : ArbAction → Bool
  | ArbAction.kalshiBuy tk true _ _ => tk == t
  | _ => false

def isDownEntryAct (t : String) : ArbAction → Bool
  | ArbAction.kalshiBuy tk false _ _ => tk == t
  | _ => false

def isSellAct : ArbAction → Bool
  | ArbAction.kalshiSell _ _ _ => true
  | ArbAction.polySell _ _ => true
  | _ => false

/-- Number of UP-leg entry attempts for ticker `t` among dispatched orders
(the Kalshi YES buy of the UP leg). -/
def countUpEntries (t : String) (acts : List ArbAction) : Nat :=
  acts.countP (isUpEntryAct t)

/-- Number of DOWN-leg entry attempts for ticker `t` among dispatched orders
(the Kalshi NO buy of the DOWN leg). -/
def countDownEntries (t : String) (acts : List ArbAction) : Nat :=
  acts.countP (isDownEntryAct t)

/-! ## Follow-Confidence sell/exit loop (src/monitor/kalshi-1-poly-strategy.ts)

The in-memory `Position` and the retrying sell loop. Each attempt consults an
environment `env : Nat → ℚ × PlacePolyResult` giving the on-chain balance read
and the sell-order outcome of that attempt. `ExitState` captures the
module-level effects: whether `cycleDoneTicker` was set to the current ticker,
the new `position`, and the holdings ledger. -/

structure K1Position : Type where
  side : Leg
  tokenId : String
  size : ℚ
  conditionId : String

structure ExitState : Type where
  cycleDone : Bool
  position : Option K1Position
  holdings : TokenHoldings

def SELL_MAX_ATTEMPTS : Nat := 20

/-- Sell size of one attempt: the floored on-chain balance when at least 0.01,
otherwise `Math.max(0.01, Math.floor((position.size - 0.02) * 100) / 100)`. -/
def sellSizeFor (balanceHuman posSize : ℚ) : ℚ :=
  if 1 / 100 ≤ balanceHuman then ((jsFloor (balanceHuman * 100) : ℤ) : ℚ) / 100
  else max (1 / 100) (((jsFloor ((posSize - 2 / 100) * 100) : ℤ) : ℚ) / 100)

/-- Embedding of the `for (let attempt = 1; attempt <= SELL_MAX_ATTEMPTS && position && !sold; ...)`
sell loop. `fuel` counts the remaining loop iterations (`fuel = 0` is the
loop exiting because `attempt > SELL_MAX_ATTEMPTS` without any terminal
branch having run, which happens only when every sell returned null). A skip
(size below 0.01) and an exhausted last error both mark cycle-done and drop
the position without touching the ledger; only a successful sell clears the
ledger entry for the position's conditionId. -/
def sellLoopAux (env : Nat → ℚ × PlacePolyResult) (pos : K1Position)
    (h : TokenHoldings) : Nat → Nat → ExitState
  | _, 0 => ⟨false, some pos, h⟩
  | attempt, fuel + 1 =>
    let bal := (env attempt).1
    let sz := sellSizeFor bal pos.size
    if sz < 1 / 100 then ⟨true, none, h⟩
    else
      match (env attempt).2 with
      | PlacePolyResult.ok _ => ⟨true, none, clearMarketHoldings h pos.conditionId⟩
      | PlacePolyResult.err _ =>
        if attempt < SELL_MAX_ATTEMPTS then sellLoopAux env pos h (attempt + 1) fuel
        else ⟨true, none, h⟩
      | PlacePolyResult.nullRes => sellLoopAux env pos h (attempt + 1) fuel

/-- Whole exit path of `checkKalshi1PolyStrategy` once the price is below the
effective threshold (non-dry-run): run the sell loop from attempt 1. -/
def runSellExit (env : Nat → ℚ × PlacePolyResult) (pos : K1Position)
    (h : TokenHoldings) : ExitState :=
  sellLoopAux env pos h 1 SELL_MAX_ATTEMPTS

/-! ## Theorems -/

theorem lookupA_setA_self {α : Type} (l : List (String × α)) (k : String) (v : α) :
    lookupA (setA l k v) k = some v := by
  induction l with
  | nil => simp [setA, lookupA]
  | cons hd tl ih =>
    obtain ⟨k0, v0⟩ := hd
    by_cases h : k0 = k
    · simp [setA, h, lookupA]
    · simp [setA, h, lookupA, ih]

theorem lookupA_eraseA_self {α : Type} (l : List (String × α)) (k : String) :
    lookupA (eraseA l k) k = none := by
  induction l with
  | nil => simp [eraseA, lookupA]
  | cons hd tl ih =>
    obtain ⟨k0, v0⟩ := hd
    by_cases h : k0 = k
    · simp [eraseA, h, ih]
    · simp [eraseA, h, lookupA, ih]

theorem getQty_addHolding_self (h : TokenHoldings) (cid tid : String) (s : ℚ)
    (hcid : cid ≠ "") (htid : tid ≠ "") (hs :0 < s) :
    getQty (addHolding h cid tid s) cid tid = getQty h cid tid + s := by
  have hguard : ¬(cid = "" ∨ tid = "" ∨ s ≤ 0) := by
    push_neg
    exact ⟨hcid, htid, hs⟩
  unfold addHolding
  rw [if_neg hguard]
  unfold getQty
  rw [lookupA_setA_self, Option.getD_some, lookupA_setA_self, Option.getD_some]

theorem lookupA_addHolding_self (h : TokenHoldings) (cid tid : String) (s : ℚ)
    (hcid : cid ≠ "") (htid : tid ≠ "") (hs : 0 < s) :
    lookupA (addHolding h cid tid s) cid ≠ none := by
  have hguard : ¬(cid = "" ∨ tid = "" ∨ s ≤ 0) := by
    push_neg
    exact ⟨hcid, htid, hs⟩
  unfold addHolding
  rw [if_neg hguard]
  simp [lookupA_setA_self]

theorem lookupA_clearMarketHoldings_self (h : TokenHoldings) (cid : String) :
    lookupA (clearMarketHoldings h cid) cid = none := by
  unfold clearMarketHoldings
  cases hl : lookupA h cid with
  | none => simpa using hl
  | some v => simp [lookupA_eraseA_self]

/-- C10: a successful buy (addHolding with a positive amount under a nonempty
settlement id) followed by the successful-sell cleanup (clearMarketHoldings
for the same settlement id) leaves the ledger with no entry at all for that
settlement id: the key is deleted, not left present mapping tokens to 0 —
even though the buy had made the key present. -/
theorem holdings_buy_sell_roundtrip_deletes_key (h : TokenHoldings)
    (cid tid : String) (s : ℚ) (hcid : cid ≠ "") (htid : tid ≠ "") (hs : 0 < s) :
    lookupA (addHolding h cid tid s) cid ≠ none ∧
    lookupA (clearMarketHoldings (addHolding h cid tid s) cid) cid = none :=
  ⟨lookupA_addHolding_self h cid tid s hcid htid hs,
   lookupA_clearMarketHoldings_self _ cid⟩

theorem holdings_buy_sell_roundtrip_deletes_key_witness :
    (("c" : String) ≠ "" ∧ ("t" : String) ≠ "" ∧ (0 : ℚ) < 5) ∧
    (lookupA (addHolding [] "c" "t" 5) "c" ≠ none ∧
     lookupA (clearMarketHoldings (addHolding [] "c" "t" 5) "c") "c" = none) :=
  ⟨⟨by decide, by decide, by norm_num⟩,
   holdings_buy_sell_roundtrip_deletes_key [] "c" "t" 5 (by decide) (by decide)
     (by norm_num)⟩

/-- C2: every successful non-dry-run entry buy of size s increases the
persistent ledger entry for the market conditionId and token by 2*s, not s,
because `placePolymarketOrder` already called `addHolding` and the strategy
calls it a second time. -/
theorem strategy_entry_buy_adds_double (h : TokenHoldings) (cid tid : String)
    (s : ℚ) (hcid : cid ≠ "") (htid : tid ≠ "") (hs : 0 < s) :
    getQty (strategyEntryBuyLedgerEffect h cid tid s) cid tid =
      getQty h cid tid + 2 * s := by
  unfold strategyEntryBuyLedgerEffect placePolymarketOrderLedgerEffect
  simp only [if_pos]
  rw [getQty_addHolding_self _ _ _ _ hcid htid hs,
    getQty_addHolding_self _ _ _ _ hcid htid hs]
  ring

theorem strategy_entry_buy_adds_double_witness :
    (("c" : String) ≠ "" ∧ ("t" : String) ≠ "" ∧ (0 : ℚ) < 5) ∧
    getQty (strategyEntryBuyLedgerEffect [] "c" "t" 5) "c" "t" =
      getQty ([] : TokenHoldings) "c" "t" + 2 * 5 :=
  ⟨⟨by decide, by decide, by norm_num⟩,
   strategy_entry_buy_adds_double [] "c" "t" 5 (by decide) (by decide) (by norm_num)⟩

/-- C8: while holding, the effective sell threshold is
POLY_SELL_BELOW - POLY_SELL_RANGE_BUFFER when the Kalshi same-side price is at
or above 1.00 and POLY_SELL_BELOW otherwise, and an exit is attempted exactly
when the held side's Polymarket price is strictly below the effective
threshold. -/
theorem follow_confidence_exit_threshold (sb rb k c : ℚ) :
    (1 ≤ k → effectiveSellThreshold sb rb k = sb - rb) ∧
    (k < 1 → effectiveSellThreshold sb rb k = sb) ∧
    (exitTriggered sb rb k c = true ↔ c < effectiveSellThreshold sb rb k) := by
  refine ⟨fun h => ?_, fun h => ?_, ?_⟩
  · simp [effectiveSellThreshold, h]
  · simp [effectiveSellThreshold, not_le.mpr h]
  · simp [exitTriggered]

/-- Witness instantiating the C8 theorem at the spec scenario: polySellBelow
0.77, buffer 0.15, Kalshi same-side 1.00 gives threshold 0.62, and Polymarket
price 0.60 triggers the exit. -/
theorem follow_confidence_exit_threshold_witness :
    ((1 : ℚ) ≤ 1 ∧ effectiveSellThreshold (77/100) (15/100) 1 = 77/100 - 15/100) ∧
    (effectiveSellThreshold (77/100) (15/100) 1 = 62/100 ∧
     exitTriggered (77/100) (15/100) 1 (60/100) = true) :=
  ⟨⟨le_refl 1, (follow_confidence_exit_threshold (77/100) (15/100) 1 (60/100)).1 (le_refl 1)⟩,
   by norm_num [effectiveSellThreshold],
   ((follow_confidence_exit_threshold (77/100) (15/100) 1 (60/100)).2.2).mpr
     (by norm_num [effectiveSellThreshold])⟩

/-- C9 counterexample: with MIN_BALANCE_USD = 5, a Kalshi balance of 0 cents
and a configured Polymarket balance of $10, the arb monitor entrypoint's
balance check halts the process with exit code 1, while the claim says the
shortfall is only logged and the process continues. The Follow-Confidence
entrypoint's variant indeed only warns and continues. -/
theorem balance_check_halts_on_arb_entrypoint :
    checkBalancesOrExitArbMonitor 5 0 (some 10) = BalanceOutcome.halted 1 ∧
    checkBalancesOrExitK1PMonitor 5 0 (some 10) = BalanceOutcome.continuedWithWarning := by
  have hs : balanceShortfall 5 0 (some 10) = true := by
    simp only [balanceShortfall, jsRound]
    norm_num
  constructor <;>
    simp [checkBalancesOrExitArbMonitor, checkBalancesOrExitK1PMonitor, hs]

/-- C9 amended: the pre-trading balance check of the Follow-Confidence
entrypoint only logs the shortfall and never halts, while the arb monitor
entrypoint's variant halts with exit code 1 exactly on the same shortfall
condition that makes the Follow-Confidence variant warn. -/
theorem balance_check_warns_k1p_halts_arb (m k : ℚ) (p : Option ℚ) :
    (∀ c, checkBalancesOrExitK1PMonitor m k p ≠ BalanceOutcome.halted c) ∧
    (checkBalancesOrExitArbMonitor m k p = BalanceOutcome.halted 1 ↔
      checkBalancesOrExitK1PMonitor m k p = BalanceOutcome.continuedWithWarning) := by
  cases hb : balanceShortfall m k p <;>
    simp [checkBalancesOrExitArbMonitor, checkBalancesOrExitK1PMonitor, hb]

/-- C4 counterexample: a world where the lock file holds live foreign pid 42
and `unlinkSync` fails (its exception is swallowed). `acquireMonitorLock`
signals pid 42, the exclusive create then fails with EEXIST, the re-read
finds the live pid 42, and the process exits with code 1 — an execution path
of acquire() that exits merely because another live instance holds the lock,
contradicting the claim that no such path exists. -/
theorem acquire_lock_exits_on_live_holder :
    (acquireMonitorLock ⟨some (some 42), fun p => p == 42, false, 7⟩).2.2 =
      LockOutcome.exited 1 ∧
    (acquireMonitorLock ⟨some (some 42), fun p => p == 42, false, 7⟩).2.1 = [42] := by
  constructor <;> rfl

/-- C4 amended: lock contention is normally resolved by forcible takeover —
when the lock names a live foreign pid and the unlink succeeds, that pid is
signalled, the lock is rewritten to the calling process's pid, and acquire
continues. But when the lock file still exists at the exclusive-create step
(its removal failed or it reappeared) and it names a live foreign pid,
acquire exits the process with code 1 instead of taking over. -/
theorem acquire_lock_takeover_or_exit (w : LockWorld) (pid : ℤ)
    (hfile : w.lockFile = some (some pid)) (hforeign : pid ≠ w.selfPid)
    (halive : w.alive pid = true) :
    (w.unlinkOk = true →
      acquireMonitorLock w =
        ({ w with lockFile := some (some w.selfPid) }, [pid], LockOutcome.continued)) ∧
    (w.unlinkOk = false →
      acquireMonitorLock w = (w, [pid], LockOutcome.exited 1)) := by
  have hk : killExistingAndRemoveLock w = (tryUnlink w, [pid]) := by
    simp [killExistingAndRemoveLock, hfile, hforeign, halive]
  constructor
  · intro hunlink
    have ht : tryUnlink w = { w with lockFile := none } := by
      simp [tryUnlink, hunlink]
    unfold acquireMonitorLock
    rw [hk, ht]
  · intro hunlink
    have ht : tryUnlink w = w := by
      simp [tryUnlink, hunlink]
    unfold acquireMonitorLock
    rw [hk, ht]
    simp [hfile, halive]

theorem acquire_lock_takeover_or_exit_witness :
    ((⟨some (some 42), fun p => p == 42, true, 7⟩ : LockWorld).lockFile = some (some 42) ∧
     (42 : ℤ) ≠ 7 ∧ (fun p => p == (42 : ℤ)) 42 = true) ∧
    (acquireMonitorLock ⟨some (some 42), fun p => p == 42, true, 7⟩ =
      (⟨some (some 7), fun p => p == 42, true, 7⟩, [42], LockOutcome.continued)) :=
  ⟨⟨rfl, by decide, by decide⟩,
   (acquire_lock_takeover_or_exit ⟨some (some 42), fun p => p == 42, true, 7⟩ 42
     rfl (by decide) (by decide)).1 rfl⟩

/-- C3: the Cross-Venue Arbitrage entry predicate is the half-open interval
test: a (finite, which every ℚ models) combined sum is in range exactly when
it is at least the low bound (inclusive) and strictly less than the high
bound (exclusive); the upper bound itself is never in range, the lower bound
itself is in range whenever the band is nonempty. -/
theorem arb_entry_band_half_open (low high sum : ℚ) :
    (inRange low high sum = true ↔ low ≤ sum ∧ sum < high) ∧
    inRange low high high = false ∧
    (low < high → inRange low high low = true) := by
  refine ⟨?_, ?_, fun hlt => ?_⟩
  · simp [inRange]
  · simp [inRange]
  · simp [inRange, hlt, le_refl]

/-- Witness at the default band [0.75, 0.92): the band is nonempty, its lower
bound is in range and its upper bound is not. -/
theorem arb_entry_band_half_open_witness :
    ARB_SUM_LOW < ARB_SUM_THRESHOLD ∧
    inRange ARB_SUM_LOW ARB_SUM_THRESHOLD ARB_SUM_LOW = true ∧
    inRange ARB_SUM_LOW ARB_SUM_THRESHOLD ARB_SUM_THRESHOLD = false :=
  ⟨by norm_num [ARB_SUM_LOW, ARB_SUM_THRESHOLD],
   (arb_entry_band_half_open ARB_SUM_LOW ARB_SUM_THRESHOLD ARB_SUM_LOW).2.2
     (by norm_num [ARB_SUM_LOW, ARB_SUM_THRESHOLD]),
   (arb_entry_band_half_open ARB_SUM_LOW ARB_SUM_THRESHOLD 0).2.1⟩

/-- C7: a venue-B buy failing with a fill-or-kill-style error is retried
exactly once at `min(POLY_PRICE_MAX, ask + FOK_RETRY_BUFFER)` and the retry
result is final; an error not matching the pattern is returned without any
retry; no execution performs more than two placements. The last conjunct
states the same single-retry replacement for the arb path
(`retryPolymarketFokAfter200ms` via `polyFinalRes`). -/
theorem poly_fok_buy_retried_exactly_once (retryRes : PlacePolyResult) (p0 a : ℚ)
    (efok eother : String) (env : OrderEnv)
    (hfok : isFokNotFilledErrorK1P efok = true)
    (hother : isFokNotFilledErrorK1P eother = false)
    (henv : env.polyFirst = PlacePolyResult.err efok)
    (hfokArb : isFokNotFilledError efok = true) :
    placePolyBuyWithRetry (PlacePolyResult.err efok) retryRes p0 (some a) =
      (retryRes, [p0, min POLY_PRICE_MAX (a + FOK_RETRY_BUFFER)]) ∧
    placePolyBuyWithRetry (PlacePolyResult.err eother) retryRes p0 (some a) =
      (PlacePolyResult.err eother, [p0]) ∧
    (∀ first : PlacePolyResult, ∀ ask : Option ℚ,
      (placePolyBuyWithRetry first retryRes p0 ask).2.length ≤ 2) ∧
    polyFinalRes env = env.polyRetry := by
  refine ⟨?_, ?_, ?_, ?_⟩
  · simp [placePolyBuyWithRetry, hfok, fokRetryPrice]
  · simp [placePolyBuyWithRetry, hother]
  · intro first ask
    cases first with
    | err m =>
      by_cases hm : isFokNotFilledErrorK1P m <;> simp [placePolyBuyWithRetry, hm]
    | ok o => simp [placePolyBuyWithRetry]
    | nullRes => simp [placePolyBuyWithRetry]
  · simp [polyFinalRes, henv, hfokArb]

theorem poly_fok_buy_retried_exactly_once_witness :
    (isFokNotFilledErrorK1P "FOK not filled" = true ∧
     isFokNotFilledErrorK1P "insufficient balance" = false) ∧
    placePolyBuyWithRetry (PlacePolyResult.err "FOK not filled")
      (PlacePolyResult.ok "o2") (9/10) (some (1/2)) =
      (PlacePolyResult.ok "o2", [9/10, min POLY_PRICE_MAX (1/2 + FOK_RETRY_BUFFER)]) :=
  ⟨⟨by decide, by decide⟩,
   (poly_fok_buy_retried_exactly_once (PlacePolyResult.ok "o2") (9/10) (1/2)
      "FOK not filled" "insufficient balance"
      ⟨true, PlacePolyResult.err "FOK not filled", PlacePolyResult.ok "o2", none⟩
      (by decide) (by decide) rfl (by decide)).1⟩

theorem entry_acts_no_sell (c : Bool) (t1 : String) (sy : Bool) (kc kp : ℤ)
    (t2 : String) (pp ps rp : ℚ) :
    ∀ a ∈ ([ArbAction.kalshiBuy t1 sy kc kp, ArbAction.polyBuy t2 pp ps] ++
      (if c then [ArbAction.polyBuyRetry t2 rp ps] else [])),
      isSellAct a = false := by
  intro a ha
  cases c <;> simp at ha
  · rcases ha with rfl | rfl <;> rfl
  · rcases ha with rfl | rfl | rfl <;> rfl

theorem arbEntryLeg_no_sell (cfg : ArbCfg) (env : OrderEnv)
    (pos0 : List (String × OpenArbPosition)) (ticker : String) (leg : Leg)
    (sideYes : Bool) (ptid : String) (kAsk polyAsk : ℚ) :
    ∀ a ∈ (arbEntryLeg cfg env pos0 ticker leg sideYes ptid kAsk polyAsk).2,
      isSellAct a = false := by
  intro a ha
  simp only [arbEntryLeg] at ha
  split at ha
  · exact absurd ha (List.not_mem_nil a)
  · split at ha
    · exact entry_acts_no_sell _ _ _ _ _ _ _ _ _ a ha
    · exact entry_acts_no_sell _ _ _ _ _ _ _ _ _ a ha

theorem arbEntry_no_sell (cfg : ArbCfg) (env : OrderEnv) (st : ArbState)
    (tk : ArbTick) : ∀ a ∈ (arbEntry cfg env st tk).2, isSellAct a = false := by
  intro a ha
  simp only [arbEntry] at ha
  split at ha
  · split at ha
    · exact absurd ha (List.not_mem_nil a)
    · exact arbEntryLeg_no_sell _ _ _ _ _ _ _ _ _ a ha
  · split at ha
    · split at ha
      · exact absurd ha (List.not_mem_nil a)
      · exact arbEntryLeg_no_sell _ _ _ _ _ _ _ _ _ a ha
    · exact absurd ha (List.not_mem_nil a)

theorem arbEntryLeg_position (cfg : ArbCfg) (env : OrderEnv)
    (pos0 : List (String × OpenArbPosition)) (ticker : String) (leg : Leg)
    (sideYes : Bool) (ptid : String) (kAsk polyAsk : ℚ)
    (hdry : cfg.dryRun = false) (hnone : lookupA pos0 ticker = none) :
    lookupA (arbEntryLeg cfg env pos0 ticker leg sideYes ptid kAsk polyAsk).1 ticker ≠ none ↔
      (env.kalshiOk && polyResOk (polyFinalRes env)) = true := by
  cases hok : env.kalshiOk && polyResOk (polyFinalRes env) <;>
    simp [arbEntryLeg, hdry, hok, lookupA_setA_self, hnone]

/-- C6: when an arb entry is attempted for a ticker with no open position
(either the UP leg is in band and unattempted, or the UP leg is out of band
while the DOWN leg is in band and unattempted) in non-dry-run mode, an
ArbPosition is recorded for the ticker if and only if both the Kalshi order
and the (once-retried if fill-failed) Polymarket order returned success; and
the invocation dispatches no sell order whatsoever, so a one-sided failure is
never compensated or rolled back and the successful leg's exposure is kept. -/
theorem arb_position_recorded_iff_both_legs_ok (cfg : ArbCfg) (env : OrderEnv)
    (st : ArbState) (tk : ArbTick)
    (hdry : cfg.dryRun = false)
    (hnopos : lookupA st.positions tk.ticker = none)
    (hattempt :
      (inRange cfg.low cfg.high (tk.upAskCents / 100 + tk.polyDown) = true ∧
        containsS st.upDone tk.ticker = false) ∨
      (inRange cfg.low cfg.high (tk.upAskCents / 100 + tk.polyDown) = false ∧
        inRange cfg.low cfg.high (tk.downAskCents / 100 + tk.polyUp) = true ∧
        containsS st.downDone tk.ticker = false)) :
    (lookupA (checkArbStep cfg env st tk).1.positions tk.ticker ≠ none ↔
      (env.kalshiOk && polyResOk (polyFinalRes env)) = true) ∧
    (∀ a ∈ (checkArbStep cfg env st tk).2, isSellAct a = false) := by
  have hstep : checkArbStep cfg env st tk = arbEntry cfg env st tk := by
    simp [checkArbStep, hnopos]
  rw [hstep]
  refine ⟨?_, arbEntry_no_sell cfg env st tk⟩
  rcases hattempt with ⟨h1, h2⟩ | ⟨h1, h2, h3⟩
  · simp only [arbEntry, h1, h2, if_true, Bool.false_eq_true, if_false]
    exact arbEntryLeg_position cfg env st.positions tk.ticker Leg.up true
      tk.downTokenId _ _ hdry hnopos
  · simp only [arbEntry, h1, h2, h3, if_true, Bool.false_eq_true, if_false]
    exact arbEntryLeg_position cfg env st.positions tk.ticker Leg.down false
      tk.upTokenId _ _ hdry hnopos

theorem arb_position_recorded_iff_both_legs_ok_witness :
    ((⟨3/4, 23/25, 1/50, 5, 5, 5, 1, false⟩ : ArbCfg).dryRun = false ∧
     lookupA ((⟨[], [], []⟩ : ArbState)).positions "T" = none ∧
     inRange (3/4) (23/25) ((55 : ℚ) / 100 + 3/10) = true ∧
     containsS [] "T" = false) ∧
    ((lookupA (checkArbStep ⟨3/4, 23/25, 1/50, 5, 5, 5, 1, false⟩
        ⟨true, PlacePolyResult.ok "p1", PlacePolyResult.nullRes, none⟩
        ⟨[], [], []⟩ ⟨"T", 55, 45, 1/2, 3/10, "UT", "DT", "C"⟩).1.positions "T" ≠ none ↔
        ((⟨true, PlacePolyResult.ok "p1", PlacePolyResult.nullRes, none⟩ : OrderEnv).kalshiOk &&
          polyResOk (polyFinalRes ⟨true, PlacePolyResult.ok "p1", PlacePolyResult.nullRes, none⟩)) = true) ∧
     (∀ a ∈ (checkArbStep ⟨3/4, 23/25, 1/50, 5, 5, 5, 1, false⟩
        ⟨true, PlacePolyResult.ok "p1", PlacePolyResult.nullRes, none⟩
        ⟨[], [], []⟩ ⟨"T", 55, 45, 1/2, 3/10, "UT", "DT", "C"⟩).2, isSellAct a = false)) :=
  ⟨⟨rfl, rfl, by norm_num [inRange], rfl⟩,
   arb_position_recorded_iff_both_legs_ok ⟨3/4, 23/25, 1/50, 5, 5, 5, 1, false⟩
     ⟨true, PlacePolyResult.ok "p1", PlacePolyResult.nullRes, none⟩
     ⟨[], [], []⟩ ⟨"T", 55, 45, 1/2, 3/10, "UT", "DT", "C"⟩ rfl rfl
     (Or.inl ⟨by norm_num [inRange], rfl⟩)⟩

theorem countUpEntries_append (t : String) (l1 l2 : List ArbAction) :
    countUpEntries t (l1 ++ l2) = countUpEntries t l1 + countUpEntries t l2 := by
  simp [countUpEntries, List.countP_append]

theorem countDownEntries_append (t : String) (l1 l2 : List ArbAction) :
    countDownEntries t (l1 ++ l2) = countDownEntries t l1 + countDownEntries t l2 := by
  simp [countDownEntries, List.countP_append]

theorem arbEntryLeg_countUp_eq (cfg : ArbCfg) (env : OrderEnv)
    (pos0 : List (String × OpenArbPosition)) (ticker : String) (leg : Leg)
    (s : Bool) (ptid : String) (kAsk polyAsk : ℚ) (t : String) :
    countUpEntries t (arbEntryLeg cfg env pos0 ticker leg s ptid kAsk polyAsk).2 =
      if cfg.dryRun then 0 else if s && (ticker == t) then 1 else 0 := by
  cases hdry : cfg.dryRun <;>
    cases hr : polyRetried env <;>
      cases hok : env.kalshiOk && polyResOk (polyFinalRes env) <;>
        cases s <;>
          cases htk : (ticker == t) <;>
            simp [arbEntryLeg, countUpEntries, isUpEntryAct, hdry, hr, hok, htk,
              List.countP_cons, List.countP_append, List.countP_nil]

theorem arbEntryLeg_countDown_eq (cfg : ArbCfg) (env : OrderEnv)
    (pos0 : List (String × OpenArbPosition)) (ticker : String) (leg : Leg)
    (s : Bool) (ptid : String) (kAsk polyAsk : ℚ) (t : String) :
    countDownEntries t (arbEntryLeg cfg env pos0 ticker leg s ptid kAsk polyAsk).2 =
      if cfg.dryRun then 0 else if !s && (ticker == t) then 1 else 0 := by
  cases hdry : cfg.dryRun <;>
    cases hr : polyRetried env <;>
      cases hok : env.kalshiOk && polyResOk (polyFinalRes env) <;>
        cases s <;>
          cases htk : (ticker == t) <;>
            simp [arbEntryLeg, countDownEntries, isDownEntryAct, hdry, hr, hok, htk,
              List.countP_cons, List.countP_append, List.countP_nil]

theorem countUpEntries_nil (t : String) : countUpEntries t [] = 0 := rfl

theorem countDownEntries_nil (t : String) : countDownEntries t [] = 0 := rfl

theorem arbEntry_up_step (cfg : ArbCfg) (env : OrderEnv) (st : ArbState)
    (tk : ArbTick) (t : String) :
    countUpEntries t (arbEntry cfg env st tk).2 ≤ 1 ∧
    (containsS st.upDone t = true →
      containsS (arbEntry cfg env st tk).1.upDone t = true ∧
      countUpEntries t (arbEntry cfg env st tk).2 = 0) ∧
    (containsS (arbEntry cfg env st tk).1.upDone t = false →
      countUpEntries t (arbEntry cfg env st tk).2 = 0) := by
  cases hu : inRange cfg.low cfg.high (tk.upAskCents / 100 + tk.polyDown) <;>
    cases hd : inRange cfg.low cfg.high (tk.downAskCents / 100 + tk.polyUp) <;>
      cases hcu : containsS st.upDone tk.ticker <;>
        cases hcd : containsS st.downDone tk.ticker <;>
          cases hdry : cfg.dryRun <;>
            cases htk : (tk.ticker == t) <;>
              (try simp [arbEntry, hu, hd, hcu, hcd, hdry, htk, arbEntryLeg_countUp_eq,
                countUpEntries_nil, containsS, beq_iff_eq]) <;>
                (try tauto) <;>
                (try (have heq : tk.ticker = t := by simpa using htk
                      rw [heq] at hcu
                      exact ⟨hcu, fun hne => absurd heq hne⟩))

theorem arbEntry_down_step (cfg : ArbCfg) (env : OrderEnv) (st : ArbState)
    (tk : ArbTick) (t : String) :
    countDownEntries t (arbEntry cfg env st tk).2 ≤ 1 ∧
    (containsS st.downDone t = true →
      containsS (arbEntry cfg env st tk).1.downDone t = true ∧
      countDownEntries t (arbEntry cfg env st tk).2 = 0) ∧
    (containsS (arbEntry cfg env st tk).1.downDone t = false →
      countDownEntries t (arbEntry cfg env st tk).2 = 0) := by
  cases hu : inRange cfg.low cfg.high (tk.upAskCents / 100 + tk.polyDown) <;>
    cases hd : inRange cfg.low cfg.high (tk.downAskCents / 100 + tk.polyUp) <;>
      cases hcu : containsS st.upDone tk.ticker <;>
        cases hcd : containsS st.downDone tk.ticker <;>
          cases hdry : cfg.dryRun <;>
            cases htk : (tk.ticker == t) <;>
              (try simp [arbEntry, hu, hd, hcu, hcd, hdry, htk, arbEntryLeg_countDown_eq,
                countDownEntries_nil, containsS, beq_iff_eq]) <;>
                (try tauto) <;>
                (try (have heq : tk.ticker = t := by simpa using htk
                      rw [heq] at hcd
                      exact ⟨hcd, fun hne => absurd heq hne⟩))

theorem checkArbStep_up_step (cfg : ArbCfg) (env : OrderEnv) (st : ArbState)
    (tk : ArbTick) (t : String) :
    countUpEntries t (checkArbStep cfg env st tk).2 ≤ 1 ∧
    (containsS st.upDone t = true →
      containsS (checkArbStep cfg env st tk).1.upDone t = true ∧
      countUpEntries t (checkArbStep cfg env st tk).2 = 0) ∧
    (containsS (checkArbStep cfg env st tk).1.upDone t = false →
      countUpEntries t (checkArbStep cfg env st tk).2 = 0) := by
  rcases hpos : lookupA st.positions tk.ticker with _ | p
  · have h : checkArbStep cfg env st tk = arbEntry cfg env st tk := by
      simp [checkArbStep, hpos]
    rw [h]
    exact arbEntry_up_step cfg env st tk t
  · by_cases hlow : (match p.leg with
      | Leg.up => tk.upAskCents / 100 + tk.polyDown
      | Leg.down => tk.downAskCents / 100 + tk.polyUp) < cfg.low
    · have h : checkArbStep cfg env st tk =
        ({ st with positions := eraseA st.positions tk.ticker },
         [ArbAction.kalshiSell tk.ticker p.kalshiSideYes p.kalshiCount,
          ArbAction.polySell p.polyTokenId p.polySize]) := by
        simp [checkArbStep, hpos, hlow]
      rw [h]
      refine ⟨?_, fun hf => ⟨?_, ?_⟩, fun _ => ?_⟩ <;>
        simp [countUpEntries, isUpEntryAct, List.countP_cons, List.countP_nil] <;>
        assumption
    · have h : checkArbStep cfg env st tk = arbEntry cfg env st tk := by
        simp [checkArbStep, hpos, hlow]
      rw [h]
      exact arbEntry_up_step cfg env st tk t

theorem checkArbStep_down_step (cfg : ArbCfg) (env : OrderEnv) (st : ArbState)
    (tk : ArbTick) (t : String) :
    countDownEntries t (checkArbStep cfg env st tk).2 ≤ 1 ∧
    (containsS st.downDone t = true →
      containsS (checkArbStep cfg env st tk).1.downDone t = true ∧
      countDownEntries t (checkArbStep cfg env st tk).2 = 0) ∧
    (containsS (checkArbStep cfg env st tk).1.downDone t = false →
      countDownEntries t (checkArbStep cfg env st tk).2 = 0) := by
  rcases hpos : lookupA st.positions tk.ticker with _ | p
  · have h : checkArbStep cfg env st tk = arbEntry cfg env st tk := by
      simp [checkArbStep, hpos]
    rw [h]
    exact arbEntry_down_step cfg env st tk t
  · by_cases hlow : (match p.leg with
      | Leg.up => tk.upAskCents / 100 + tk.polyDown
      | Leg.down => tk.downAskCents / 100 + tk.polyUp) < cfg.low
    · have h : checkArbStep cfg env st tk =
        ({ st with positions := eraseA st.positions tk.ticker },
         [ArbAction.kalshiSell tk.ticker p.kalshiSideYes p.kalshiCount,
          ArbAction.polySell p.polyTokenId p.polySize]) := by
        simp [checkArbStep, hpos, hlow]
      rw [h]
      refine ⟨?_, fun hf => ⟨?_, ?_⟩, fun _ => ?_⟩ <;>
        simp [countDownEntries, isDownEntryAct, List.countP_cons, List.countP_nil] <;>
        assumption
    · have h : checkArbStep cfg env st tk = arbEntry cfg env st tk := by
        simp [checkArbStep, hpos, hlow]
      rw [h]
      exact arbEntry_down_step cfg env st tk t

theorem runArbTrace_countUp_le (cfg : ArbCfg) (t : String) :
    ∀ (trace : List (ArbTick × OrderEnv)) (st : ArbState),
      countUpEntries t (runArbTrace cfg st trace).2 ≤
        (if containsS st.upDone t = true then 0 else 1) := by
  intro trace
  induction trace with
  | nil =>
    intro st
    simp [runArbTrace, countUpEntries_nil]
  | cons head rest ih =>
    intro st
    obtain ⟨tk, env⟩ := head
    obtain ⟨hle, hdone, hunset⟩ := checkArbStep_up_step cfg env st tk t
    have hrest := ih (checkArbStep cfg env st tk).1
    simp only [runArbTrace, countUpEntries_append]
    by_cases hflag : containsS st.upDone t = true
    · obtain ⟨hkeep, hzero⟩ := hdone hflag
      rw [if_pos hflag]
      rw [if_pos hkeep] at hrest
      omega
    · rw [if_neg hflag]
      by_cases hnew : containsS (checkArbStep cfg env st tk).1.upDone t = true
      · rw [if_pos hnew] at hrest
        omega
      · have hz := hunset (by simpa using hnew)
        rw [if_neg hnew] at hrest
        omega

theorem runArbTrace_countDown_le (cfg : ArbCfg) (t : String) :
    ∀ (trace : List (ArbTick × OrderEnv)) (st : ArbState),
      countDownEntries t (runArbTrace cfg st trace).2 ≤
        (if containsS st.downDone t = true then 0 else 1) := by
  intro trace
  induction trace with
  | nil =>
    intro st
    simp [runArbTrace, countDownEntries_nil]
  | cons head rest ih =>
    intro st
    obtain ⟨tk, env⟩ := head
    obtain ⟨hle, hdone, hunset⟩ := checkArbStep_down_step cfg env st tk t
    have hrest := ih (checkArbStep cfg env st tk).1
    simp only [runArbTrace, countDownEntries_append]
    by_cases hflag : containsS st.downDone t = true
    · obtain ⟨hkeep, hzero⟩ := hdone hflag
      rw [if_pos hflag]
      rw [if_pos hkeep] at hrest
      omega
    · rw [if_neg hflag]
      by_cases hnew : containsS (checkArbStep cfg env st tk).1.downDone t = true
      · rw [if_pos hnew] at hrest
        omega
      · have hz := hunset (by simpa using hnew)
        rw [if_neg hnew] at hrest
        omega

/-- C5: arb leg idempotence. Over any sequence of `checkArbAndPlaceOrders`
invocations: once a ticker is in the UP (resp. DOWN) attempt set, no UP
(resp. DOWN) entry order for it is ever dispatched again; and from any
starting state at most one entry attempt per leg per ticker occurs. -/
theorem arb_leg_entry_attempted_at_most_once (cfg : ArbCfg) (st : ArbState)
    (trace : List (ArbTick × OrderEnv)) (t : String) :
    (containsS st.upDone t = true →
      countUpEntries t (runArbTrace cfg st trace).2 = 0) ∧
    countUpEntries t (runArbTrace cfg st trace).2 ≤ 1 ∧
    (containsS st.downDone t = true →
      countDownEntries t (runArbTrace cfg st trace).2 = 0) ∧
    countDownEntries t (runArbTrace cfg st trace).2 ≤ 1 := by
  have hu := runArbTrace_countUp_le cfg t trace st
  have hd := runArbTrace_countDown_le cfg t trace st
  refine ⟨fun hf => ?_, ?_, fun hf => ?_, ?_⟩
  · rw [if_pos hf] at hu
    omega
  · by_cases hf : containsS st.upDone t = true
    · rw [if_pos hf] at hu
      omega
    · rw [if_neg hf] at hu
      omega
  · rw [if_pos hf] at hd
    omega
  · by_cases hf : containsS st.downDone t = true
    · rw [if_pos hf] at hd
      omega
    · rw [if_neg hf] at hd
      omega

theorem arb_leg_entry_attempted_at_most_once_witness :
    (containsS ["T"] "T" = true ∧ containsS ["T"] "T" = true) ∧
    (countUpEntries "T" (runArbTrace ⟨3/4, 23/25, 1/50, 5, 5, 5, 1, false⟩
        ⟨["T"], ["T"], []⟩
        [(⟨"T", 55, 45, 1/2, 3/10, "UT", "DT", "C"⟩,
          ⟨true, PlacePolyResult.ok "p1", PlacePolyResult.nullRes, none⟩)]).2 = 0 ∧
     countDownEntries "T" (runArbTrace ⟨3/4, 23/25, 1/50, 5, 5, 5, 1, false⟩
        ⟨["T"], ["T"], []⟩
        [(⟨"T", 55, 45, 1/2, 3/10, "UT", "DT", "C"⟩,
          ⟨true, PlacePolyResult.ok "p1", PlacePolyResult.nullRes, none⟩)]).2 = 0) :=
  ⟨⟨by decide, by decide⟩,
   (arb_leg_entry_attempted_at_most_once ⟨3/4, 23/25, 1/50, 5, 5, 5, 1, false⟩
      ⟨["T"], ["T"], []⟩
      [(⟨"T", 55, 45, 1/2, 3/10, "UT", "DT", "C"⟩,
        ⟨true, PlacePolyResult.ok "p1", PlacePolyResult.nullRes, none⟩)] "T").1
     (by decide),
   (arb_leg_entry_attempted_at_most_once ⟨3/4, 23/25, 1/50, 5, 5, 5, 1, false⟩
      ⟨["T"], ["T"], []⟩
      [(⟨"T", 55, 45, 1/2, 3/10, "UT", "DT", "C"⟩,
        ⟨true, PlacePolyResult.ok "p1", PlacePolyResult.nullRes, none⟩)] "T").2.2.1
     (by decide)⟩

theorem sellSizeFor_ge (bal s : ℚ) : 1 / 100 ≤ sellSizeFor bal s := by
  unfold sellSizeFor jsFloor
  split
  · rename_i hb
    have h1 : (1 : ℤ) ≤ ⌊bal * 100⌋ := by
      rw [Int.le_floor]
      push_cast
      linarith
    have h2 : (1 : ℚ) ≤ ((⌊bal * 100⌋ : ℤ) : ℚ) := by
      exact_mod_cast h1
    linarith
  · exact le_max_left _ _

theorem sellLoop_first_ok (env : Nat → ℚ × PlacePolyResult) (pos : K1Position)
    (h : TokenHoldings) (oid : String) (fuel : Nat)
    (hok : (env 1).2 = PlacePolyResult.ok oid) :
    sellLoopAux env pos h 1 (fuel + 1) =
      ⟨true, none, clearMarketHoldings h pos.conditionId⟩ := by
  simp only [sellLoopAux, hok]
  rw [if_neg (not_lt.mpr (sellSizeFor_ge _ _))]

theorem sellLoop_allFail (env : Nat → ℚ × PlacePolyResult) (pos : K1Position)
    (h : TokenHoldings) :
    ∀ (fuel attempt : Nat), attempt + fuel = SELL_MAX_ATTEMPTS + 1 →
      attempt ≤ SELL_MAX_ATTEMPTS →
      (∀ i, attempt ≤ i → i ≤ SELL_MAX_ATTEMPTS →
        ∃ e, (env i).2 = PlacePolyResult.err e) →
      sellLoopAux env pos h attempt fuel = ⟨true, none, h⟩ := by
  intro fuel
  induction fuel with
  | zero =>
    intro attempt hsum hle _
    rw [SELL_MAX_ATTEMPTS] at hsum hle
    omega
  | succ f ih =>
    intro attempt hsum hle herr
    obtain ⟨e, he⟩ := herr attempt le_rfl hle
    simp only [sellLoopAux, he]
    rw [if_neg (not_lt.mpr (sellSizeFor_ge _ _))]
    by_cases hlt : attempt < SELL_MAX_ATTEMPTS
    · rw [if_pos hlt]
      exact ih (attempt + 1) (by omega) (by omega)
        (fun i hi1 hi2 => herr i (by omega) hi2)
    · rw [if_neg hlt]

/-- C1 counterexample: a held position with conditionId "c" whose ledger entry
exists (from the buy), with every one of the 20 sell attempts failing with an
error. The exit loop marks the cycle done and clears the in-memory position,
but the holdings-ledger entry for "c" is still present afterwards — the claim
that an exhausted-retry abandonment also deletes the ledger entry is false. -/
theorem sell_exit_abandon_keeps_ledger_entry :
    (runSellExit (fun _ => ((5 : ℚ), PlacePolyResult.err "rejected"))
        ⟨Leg.up, "t", 5, "c"⟩ (addHolding [] "c" "t" 5)).cycleDone = true ∧
    (runSellExit (fun _ => ((5 : ℚ), PlacePolyResult.err "rejected"))
        ⟨Leg.up, "t", 5, "c"⟩ (addHolding [] "c" "t" 5)).position = none ∧
    lookupA (runSellExit (fun _ => ((5 : ℚ), PlacePolyResult.err "rejected"))
        ⟨Leg.up, "t", 5, "c"⟩ (addHolding [] "c" "t" 5)).holdings "c" ≠ none := by
  have hrun : runSellExit (fun _ => ((5 : ℚ), PlacePolyResult.err "rejected"))
      ⟨Leg.up, "t", 5, "c"⟩ (addHolding [] "c" "t" 5) =
      ⟨true, none, addHolding [] "c" "t" 5⟩ := by
    apply sellLoop_allFail
    · rfl
    · rw [SELL_MAX_ATTEMPTS]
      omega
    · intro i _ _
      exact ⟨"rejected", rfl⟩
  rw [hrun]
  exact ⟨rfl, rfl, lookupA_addHolding_self [] "c" "t" 5 (by decide) (by decide)
    (by norm_num)⟩

/-- C1 amended: in the Follow-Confidence exit loop, a successful sell and an
exhausted-retry abandonment (SELL_MAX_ATTEMPTS failed attempts) both mark the
ticker cycle-done and clear the in-memory position; but only the successful
sell deletes the holdings-ledger entry for the settlement id — abandonment
leaves the ledger entry untouched. -/
theorem sell_exit_terminal_states (env : Nat → ℚ × PlacePolyResult)
    (pos : K1Position) (h : TokenHoldings) :
    ((∃ oid, (env 1).2 = PlacePolyResult.ok oid) →
      runSellExit env pos h = ⟨true, none, clearMarketHoldings h pos.conditionId⟩) ∧
    ((∀ i, 1 ≤ i → i ≤ SELL_MAX_ATTEMPTS → ∃ e, (env i).2 = PlacePolyResult.err e) →
      runSellExit env pos h = ⟨true, none, h⟩) := by
  constructor
  · rintro ⟨oid, hok⟩
    show sellLoopAux env pos h 1 (19 + 1) = _
    exact sellLoop_first_ok env pos h oid 19 hok
  · intro herr
    exact sellLoop_allFail env pos h SELL_MAX_ATTEMPTS 1 rfl
      (by rw [SELL_MAX_ATTEMPTS]; omega) (fun i hi1 hi2 => herr i hi1 hi2)

theorem sell_exit_terminal_states_witness :
    ((∃ oid, ((fun _ => ((5 : ℚ), PlacePolyResult.ok "s1")) 1).2 =
        PlacePolyResult.ok oid) ∧
     runSellExit (fun _ => ((5 : ℚ), PlacePolyResult.ok "s1"))
        ⟨Leg.up, "t", 5, "c"⟩ [] = ⟨true, none, clearMarketHoldings [] "c"⟩) ∧
    runSellExit (fun _ => ((5 : ℚ), PlacePolyResult.err "nope"))
        ⟨Leg.up, "t", 5, "c"⟩ [] = ⟨true, none, []⟩ :=
  ⟨⟨⟨"s1", rfl⟩,
    (sell_exit_terminal_states (fun _ => ((5 : ℚ), PlacePolyResult.ok "s1"))
      ⟨Leg.up, "t", 5, "c"⟩ []).1 ⟨"s1", rfl⟩⟩,
   (sell_exit_terminal_states (fun _ => ((5 : ℚ), PlacePolyResult.err "nope"))
      ⟨Leg.up, "t", 5, "c"⟩ []).2 (fun i _ _ => ⟨"nope", rfl⟩)⟩
